import Mathlib

/-!
# lab: reference resolver, browser launcher and add-issue options

A shallow embedding of `util.go` (`SearchBrowserLauncher`, `BrowseType`,
`BrowseTypePrefix`, `splitPrefixAndNumber`) and of the option construction of
`commands/add_issue.go`, together with the Go standard-library functions they
call (`strings.HasPrefix`, `strings.TrimPrefix`, `strconv.Atoi` with
`ParseInt` and `ParseUint`, and the `%d` verb of `fmt.Sprintf`).

Go strings are immutable byte sequences, so a string is a list of bytes.
Machine integers are `Nat` or `Int` with the wrap-around written out.
Go's multiple return values are tuples; a `nil` error is `none`.
-/

namespace Lab

/-! ## Go strings -/

/-- A Go string: a sequence of bytes. -/
abbrev GoString := List UInt8

/-- The bytes of a string literal of the source (UTF-8, as Go stores it). -/
def str (s : String) : GoString := s.data.flatMap String.utf8EncodeChar

/-- Go `strings.HasPrefix(s, prefix)`:
`len(s) >= len(prefix) && s[:len(prefix)] == prefix`. -/
def HasPrefix (s pre : GoString) : Bool :=
  decide (s.length ≥ pre.length) && decide (s.take pre.length = pre)

/-- Go `strings.TrimPrefix(s, prefix)`: `s[len(prefix):]` when `prefix` is a
prefix of `s`, and `s` otherwise. -/
def TrimPrefix (s pre : GoString) : GoString :=
  if HasPrefix s pre then s.drop pre.length else s

/-! ## `strconv` -/

/-- The two errors of `strconv`: `ErrSyntax` and `ErrRange`. -/
inductive NumError where
  | ErrSyntax
  | ErrRange
deriving DecidableEq, Repr

/-- A signed machine integer of `w` bits: the two's-complement value of `x`. -/
def wrapInt (w : Nat) (x : Int) : Int :=
  (x + 2 ^ (w - 1)) % 2 ^ w - 2 ^ (w - 1)

/-- Go `strconv.lower(c)`: `c | ('x' - 'X')`. -/
def lower (c : UInt8) : Nat := Nat.lor c.toNat 32

/-- The `cutoff` of `ParseUint` for base 10: `maxUint64/10 + 1`. -/
def uintCutoff : Nat := (2 ^ 64 - 1) / 10 + 1

/-- The digit loop of `strconv.ParseUint` for base 10 (so `base0` is false and
the underscore case never fires), on `uint64` arithmetic. The result is the
pair `(n, err)` that `ParseUint` returns. -/
def parseUintLoop (maxVal : Nat) (n : Nat) : GoString → Nat × Option NumError
  | [] => (n, none)
  | c :: cs =>
    let d? : Option Nat :=
      if 48 ≤ c.toNat ∧ c.toNat ≤ 57 then some (c.toNat - 48)
      else if 97 ≤ lower c ∧ lower c ≤ 122 then some ((lower c - 97 + 10) % 256)
      else none
    match d? with
    | none => (0, some NumError.ErrSyntax)
    | some d =>
      if d ≥ 10 then (0, some NumError.ErrSyntax)
      else if n ≥ uintCutoff then (maxVal, some NumError.ErrRange)
      else
        let n10 := (n * 10) % 2 ^ 64
        let n1 := (n10 + d) % 2 ^ 64
        if n1 < n10 ∨ n1 > maxVal then (maxVal, some NumError.ErrRange)
        else parseUintLoop maxVal n1 cs

/-- Go `strconv.ParseUint(s, 10, 0)`, with `bitSize` 0 standing for
`IntSize`, here the parameter `intSize`. -/
def ParseUint (intSize : Nat) (s : GoString) : Nat × Option NumError :=
  if s = [] then (0, some NumError.ErrSyntax)
  else
    let maxVal := ((2 ^ intSize) % 2 ^ 64 + 2 ^ 64 - 1) % 2 ^ 64
    parseUintLoop maxVal 0 s

/-- Go `strconv.ParseInt(s, 10, 0)`. The result is `(i, err)`. -/
def ParseInt (intSize : Nat) (s : GoString) : Int × Option NumError :=
  match s with
  | [] => (0, some NumError.ErrSyntax)
  | c0 :: t =>
    let neg : Bool := c0 != 43 && c0 == 45
    let s1 : GoString := if c0 = 43 then t else if c0 = 45 then t else s
    let r := ParseUint intSize s1
    let un := r.1
    if r.2 = some NumError.ErrSyntax then (0, some NumError.ErrSyntax)
    else
      let cutoff : Nat := (2 ^ (intSize - 1)) % 2 ^ 64
      if !neg && decide (un ≥ cutoff) then
        (wrapInt 64 ((cutoff : Int) - 1), some NumError.ErrRange)
      else if neg && decide (un > cutoff) then
        (wrapInt 64 (-(wrapInt 64 cutoff)), some NumError.ErrRange)
      else
        let n := wrapInt 64 un
        (if neg then wrapInt 64 (-n) else n, none)

/-- The digit loop of the fast path of `strconv.Atoi`: `ch -= '0'` on a byte,
`n = n*10 + int(ch)` on an `int`. `none` is the syntax error. -/
def atoiFastLoop (intSize : Nat) (n : Int) : GoString → Option Int
  | [] => some n
  | c :: cs =>
    let ch := (c.toNat + 256 - 48) % 256
    if ch > 9 then none
    else atoiFastLoop intSize (wrapInt intSize (wrapInt intSize (n * 10) + ch)) cs

/-- Go `strconv.Atoi(s)` on a platform whose `int` has `intSize` bits. The
result is `(n, err)`. -/
def Atoi (intSize : Nat) (s : GoString) : Int × Option NumError :=
  let sLen := s.length
  if (intSize = 32 ∧ 0 < sLen ∧ sLen < 10) ∨ (intSize = 64 ∧ 0 < sLen ∧ sLen < 19) then
    match s with
    | [] => (0, some NumError.ErrSyntax)
    | c0 :: t =>
      let signed : Bool := c0 == 45 || c0 == 43
      let s1 : GoString := if signed then t else s
      if signed && decide (s1.length < 1) then (0, some NumError.ErrSyntax)
      else
        match atoiFastLoop intSize 0 s1 with
        | none => (0, some NumError.ErrSyntax)
        | some n => (if c0 = 45 then wrapInt intSize (-n) else n, none)
  else
    let r := ParseInt intSize s
    (wrapInt intSize r.1, r.2)

/-! ## `fmt` -/

/-- The base-10 branch of `fmtInteger` in Go's `fmt`: the digits of `u` are
written from the end of the buffer, `for u >= 10` one digit
`byte('0' + u - next*10)` at a time, then the last digit `digits[u]`. The
first argument bounds the number of turns of the loop; a `uint64` has at most
20 digits, so 20 turns are never used up (`fmtDigits_spec`). -/
def fmtDigits : Nat → Nat → GoString → GoString
  | 0, u, buf => UInt8.ofNat (48 + u) :: buf
  | fuel + 1, u, buf =>
    if u ≥ 10 then fmtDigits fuel (u / 10) (UInt8.ofNat (48 + u - u / 10 * 10) :: buf)
    else UInt8.ofNat (48 + u) :: buf

/-- Go `fmt.Sprintf("%d", n)` for an `int` `n` (no flags): `fmtInteger` on
`uint64(n)`, which negates a negative value and puts `'-'` in front. -/
def fmtInt (n : Int) : GoString :=
  let u : Nat := (n % 2 ^ 64).toNat
  let negative : Bool := decide (wrapInt 64 u < 0)
  let u1 : Nat := if negative then (2 ^ 64 - u) % 2 ^ 64 else u
  let buf := fmtDigits 20 u1 []
  if negative then 45 :: buf else buf

/-! ## `util.go` -/

/-- The `BrowseType` of `util.go`: `Issue` is 0 (the zero value) and
`MergeRequest` is 1. -/
inductive BrowseType where
  | Issue
  | MergeRequest
deriving DecidableEq, Repr

open BrowseType

/-- The entries of the map literal `BrowseTypePrefix`, in the order written. -/
def BrowseTypePrefix : List (GoString × BrowseType) :=
  [ (str "#", Issue),
    (str "i", Issue),
    (str "I", Issue),
    (str "!", MergeRequest),
    (str "m", MergeRequest),
    (str "M", MergeRequest) ]

/-- The function `splitPrefixAndNumber` of `util.go`. `order` is the sequence
in which `range BrowseTypePrefix` yields the entries of the map (Go leaves it
unspecified: any permutation of the entries). The result is the triple
`(BrowseType, int, error)`; an error carries its message. -/
def splitPrefixAndNumber (intSize : Nat) (order : List (GoString × BrowseType))
    (arg : GoString) : BrowseType × Int × Option GoString :=
  match order with
  | [] => (Issue, 0, some (str "Invalid arg: " ++ arg))
  | (k, v) :: rest =>
    if HasPrefix arg k then
      let numberStr := TrimPrefix arg k
      let r := Atoi intSize numberStr
      if r.2 ≠ none then (Issue, 0, some (str "Invalid browsing number: " ++ arg))
      else (v, r.1, none)
    else splitPrefixAndNumber intSize rest arg

/-- The `candidates` of `SearchBrowserLauncher`, in the order of the source. -/
def candidates : List GoString :=
  [ str "xdg-open", str "cygstart", str "x-www-browser", str "firefox",
    str "opera", str "mozilla", str "netscape" ]

/-- The `for` loop of `SearchBrowserLauncher`: `browser` starts as the empty
string and takes the path of the first candidate found. -/
def searchCandidates (LookPath : GoString → Option GoString) : List GoString → GoString
  | [] => []
  | b :: bs =>
    match LookPath b with
    | some path => path
    | none => searchCandidates LookPath bs

/-- The function `SearchBrowserLauncher` of `util.go`. `LookPath b` is
`some path` when `exec.LookPath(b)` returns `path` with a `nil` error. -/
def SearchBrowserLauncher (LookPath : GoString → Option GoString) (goos : GoString) :
    GoString :=
  if goos = str "darwin" then str "open"
  else if goos = str "windows" then str "cmd /c start"
  else searchCandidates LookPath candidates

/-! ## `commands/add_issue.go` and `commands/merge_request.go` -/

/-- The reference `AddIssueCommand.Run` prints for a created issue:
`fmt.Sprintf("#%d", issue.IID)`. -/
def issueReference (iid : Int) : GoString := str "#" ++ fmtInt iid

/-- The reference `MergeRequestCommand.Run` puts in front of each listed merge
request: `fmt.Sprintf("!%d", mergeRequest.IID)`. -/
def mergeRequestReference (iid : Int) : GoString := str "!" ++ fmtInt iid

/-- The struct `CreateIssueFlags` of `commands/add_issue.go`. -/
structure CreateIssueFlags where
  /-- Flag `-t`, `--title`: "The title of an issue". -/
  Title : GoString
  /-- Flag `-d`, `--description`: "The description of an issue". -/
  Description : GoString
  /-- Flag `-a`, `--assignee_id`: "The ID of a user to assign issue". -/
  AssigneeID : Int
  /-- Flag `-m`, `--milestone_id`: "The ID of a milestone to assign issue". -/
  MilestoneID : Int
  /-- Flag `-l`, `--labels`: "Comma-separated label names for an issue". -/
  Labels : GoString
deriving DecidableEq

/-- The fields of `gitlabc.CreateIssueOptions` that `makeCreateIssueOptions`
sets: two `*string`, a `*int` and a `[]string`; a `nil` pointer is `none`. -/
structure CreateIssueOptions where
  Title : Option GoString
  Description : Option GoString
  MilestoneID : Option Int
  Labels : List GoString
deriving DecidableEq

/-- The function `makeCreateIssueOptions` of `commands/add_issue.go`. -/
def makeCreateIssueOptions (title description : GoString) : CreateIssueOptions :=
  { Title := some title,
    Description := some description,
    MilestoneID := none,
    Labels := [] }

/-- The first argument of the `client.CreateIssue` call of
`AddIssueCommand.Run`, once the flags are parsed into `flags`. `edited` is
the outcome of the editor: `none` when it fails, else the title and the
description it returns. The result is `none` when `Run` returns before the
call. The provider calls between the two are left out: they do not touch the
options. -/
def runCreateIssueOptions (flags : CreateIssueFlags)
    (edited : Option (GoString × GoString)) : Option CreateIssueOptions :=
  let td : Option (GoString × GoString) :=
    if flags.Title = [] ∨ flags.Description = [] then edited
    else some (flags.Title, flags.Description)
  match td with
  | none => none
  | some (title, description) =>
    if title = [] then none else some (makeCreateIssueOptions title description)

/-! ## Decimal numerals

The words of the specification: a string of decimal digits and its integer
value. -/

/-- A decimal digit: a byte between `'0'` and `'9'`. -/
def isDigit (c : UInt8) : Bool := decide (48 ≤ c.toNat) && decide (c.toNat ≤ 57)

/-- The number written by the digits `ds` after the number `n`. -/
def decimalFrom (n : Nat) (ds : GoString) : Nat :=
  ds.foldl (fun a c => a * 10 + (c.toNat - 48)) n

/-- The integer value of a string of decimal digits. -/
def decimalValue (ds : GoString) : Nat := decimalFrom 0 ds

/-! ## Auxiliary definitions

Names for parts of the functions above, used to state the lemmas. -/

/-- The body of the loop of `splitPrefixAndNumber` for a matching entry. -/
def matched (intSize : Nat) (e : GoString × BrowseType) (arg : GoString) :
    BrowseType × Int × Option GoString :=
  if (Atoi intSize (TrimPrefix arg e.1)).2 ≠ none then
    (Issue, 0, some (str "Invalid browsing number: " ++ arg))
  else (e.2, (Atoi intSize (TrimPrefix arg e.1)).1, none)

/-- The part of `ParseInt` after the sign is picked off. -/
def parseIntRest (intSize : Nat) (neg : Bool) (r : Nat × Option NumError) :
    Int × Option NumError :=
  if r.2 = some NumError.ErrSyntax then (0, some NumError.ErrSyntax)
  else
    if !neg && decide (r.1 ≥ (2 ^ (intSize - 1)) % 2 ^ 64) then
      (wrapInt 64 ((((2 ^ (intSize - 1)) % 2 ^ 64 : Nat) : Int) - 1), some NumError.ErrRange)
    else if neg && decide (r.1 > (2 ^ (intSize - 1)) % 2 ^ 64) then
      (wrapInt 64 (-(wrapInt 64 ((2 ^ (intSize - 1)) % 2 ^ 64 : Nat))), some NumError.ErrRange)
    else
      (if neg then wrapInt 64 (-(wrapInt 64 r.1)) else wrapInt 64 r.1, none)

/-- The sign and the digits that `Atoi` and `ParseInt` split a non-empty
string into. -/
def signSplit (c0 : UInt8) (t : GoString) : Bool × GoString :=
  if c0 = 45 then (true, t) else if c0 = 43 then (false, t) else (false, c0 :: t)

/-! ## Theorems -/

/-! ### Prefixes and the loop over the table -/

theorem HasPrefix_iff (s p : GoString) : HasPrefix s p = true ↔ p <+: s := by
  unfold HasPrefix
  simp only [Bool.and_eq_true, decide_eq_true_eq]
  constructor
  · rintro ⟨_, h⟩
    rw [← h]; exact List.take_prefix _ _
  · rintro ⟨t, rfl⟩
    simp

theorem TrimPrefix_append (p t : GoString) : TrimPrefix (p ++ t) p = t := by
  unfold TrimPrefix
  rw [if_pos ((HasPrefix_iff _ _).2 ⟨t, rfl⟩)]
  simp

theorem split_of_no_match (w : Nat) (arg : GoString) :
    ∀ order : List (GoString × BrowseType),
      (∀ e ∈ order, HasPrefix arg e.1 = false) →
      splitPrefixAndNumber w order arg = (Issue, 0, some (str "Invalid arg: " ++ arg))
  | [], _ => rfl
  | (k, v) :: rest, h => by
    have hk : HasPrefix arg k = false := h (k, v) (List.mem_cons_self _ _)
    have ih := split_of_no_match w arg rest (fun e he => h e (List.mem_cons_of_mem _ he))
    simp [splitPrefixAndNumber, hk, ih]

theorem split_of_unique_match (w : Nat) (arg : GoString) (e : GoString × BrowseType) :
    ∀ order : List (GoString × BrowseType),
      e ∈ order → HasPrefix arg e.1 = true →
      (∀ e' ∈ order, HasPrefix arg e'.1 = true → e' = e) →
      splitPrefixAndNumber w order arg = matched w e arg
  | [], he, _, _ => by cases he
  | (k, v) :: rest, he, hp, hu => by
    by_cases hk : HasPrefix arg k = true
    · have : (k, v) = e := hu (k, v) (List.mem_cons_self _ _) hk
      subst this
      simp [splitPrefixAndNumber, hk, matched]
    · have hne : e ≠ (k, v) := by
        rintro rfl; exact hk hp
      have he' : e ∈ rest := by
        rcases List.mem_cons.1 he with h | h
        · exact absurd h hne
        · exact h
      have ih := split_of_unique_match w arg e rest he' hp
        (fun e' h' => hu e' (List.mem_cons_of_mem _ h'))
      simp [splitPrefixAndNumber, hk, ih]

theorem table_eq : BrowseTypePrefix =
    [([35], Issue), ([105], Issue), ([73], Issue),
     ([33], MergeRequest), ([109], MergeRequest), ([77], MergeRequest)] := by decide

theorem table_unambiguous (arg : GoString) (e1 e2 : GoString × BrowseType)
    (h1 : e1 ∈ BrowseTypePrefix) (h2 : e2 ∈ BrowseTypePrefix)
    (p1 : HasPrefix arg e1.1 = true) (p2 : HasPrefix arg e2.1 = true) : e1 = e2 := by
  rw [HasPrefix_iff] at p1 p2
  obtain ⟨t1, rfl⟩ := p1
  obtain ⟨t2, q⟩ := p2
  rw [table_eq] at h1 h2
  simp only [List.mem_cons, List.mem_singleton, List.not_mem_nil, or_false] at h1 h2
  rcases h1 with rfl | rfl | rfl | rfl | rfl | rfl <;>
  rcases h2 with rfl | rfl | rfl | rfl | rfl | rfl <;>
  first
  | rfl
  | (exfalso
     simp only [List.cons_append, List.nil_append, List.cons.injEq] at q
     exact absurd q.1 (by decide))

/-! ### `strconv.Atoi` on signed decimal numerals -/

theorem decimalFrom_cons (n : Nat) (c : UInt8) (cs : GoString) :
    decimalFrom n (c :: cs) = decimalFrom (n * 10 + (c.toNat - 48)) cs := rfl

theorem le_decimalFrom : ∀ (cs : GoString) (n : Nat), n ≤ decimalFrom n cs
  | [], _ => Nat.le_refl _
  | c :: cs, n => by
    have := le_decimalFrom cs (n * 10 + (c.toNat - 48))
    rw [decimalFrom_cons]; omega

theorem decimalFrom_lt : ∀ (cs : GoString) (n : Nat), (∀ c ∈ cs, isDigit c = true) →
    decimalFrom n cs < (n + 1) * 10 ^ cs.length
  | [], n, _ => by simp [decimalFrom]
  | c :: cs, n, h => by
    have hc : isDigit c = true := h c (List.mem_cons_self _ _)
    have ih := decimalFrom_lt cs (n * 10 + (c.toNat - 48))
      (fun x hx => h x (List.mem_cons_of_mem _ hx))
    simp only [isDigit, Bool.and_eq_true, decide_eq_true_eq] at hc
    rw [decimalFrom_cons, List.length_cons, pow_succ]
    have h2 : (n * 10 + (c.toNat - 48) + 1) * 10 ^ cs.length ≤ ((n + 1) * 10) * 10 ^ cs.length :=
      Nat.mul_le_mul_right _ (by omega)
    calc decimalFrom (n * 10 + (c.toNat - 48)) cs
        < (n * 10 + (c.toNat - 48) + 1) * 10 ^ cs.length := ih
      _ ≤ ((n + 1) * 10) * 10 ^ cs.length := h2
      _ = (n + 1) * (10 ^ cs.length * 10) := by ring

theorem wrapInt_of_range (w : Nat) (hw : 1 ≤ w) (x : Int)
    (h1 : -(2 : Int) ^ (w - 1) ≤ x) (h2 : x < (2 : Int) ^ (w - 1)) : wrapInt w x = x := by
  unfold wrapInt
  have hp : (2 : Int) ^ w = 2 * 2 ^ (w - 1) := by
    obtain ⟨k, rfl⟩ : ∃ k, w = k + 1 := ⟨w - 1, by omega⟩
    simp [pow_succ, mul_comm]
  rw [hp, Int.emod_eq_of_lt (by omega) (by omega)]
  omega

theorem parseUintLoop_digits (maxVal : Nat) (hm : maxVal < 2 ^ 64) :
    ∀ (cs : GoString) (n : Nat), (∀ c ∈ cs, isDigit c = true) →
      decimalFrom n cs ≤ maxVal → parseUintLoop maxVal n cs = (decimalFrom n cs, none)
  | [], n, _, _ => rfl
  | c :: cs, n, h, hv => by
    have hc : isDigit c = true := h c (List.mem_cons_self _ _)
    simp only [isDigit, Bool.and_eq_true, decide_eq_true_eq] at hc
    rw [decimalFrom_cons] at hv ⊢
    have hle := le_decimalFrom cs (n * 10 + (c.toNat - 48))
    have ih := parseUintLoop_digits maxVal hm cs (n * 10 + (c.toNat - 48))
      (fun x hx => h x (List.mem_cons_of_mem _ hx)) hv
    have e1 : n * 10 % 2 ^ 64 = n * 10 := Nat.mod_eq_of_lt (by omega)
    have e2 : (n * 10 + (c.toNat - 48)) % 2 ^ 64 = n * 10 + (c.toNat - 48) :=
      Nat.mod_eq_of_lt (by omega)
    have h3 : ¬ (c.toNat - 48 ≥ 10) := by omega
    have h4 : ¬ (n ≥ uintCutoff) := by unfold uintCutoff; omega
    have h5 : ¬ (n * 10 + (c.toNat - 48) < n * 10 ∨ n * 10 + (c.toNat - 48) > maxVal) := by omega
    simp only [parseUintLoop, hc, and_self, if_true, h3, h4, if_false, e1, e2, h5, ih]

theorem parseUintLoop_range (maxVal : Nat) (hm : maxVal < 2 ^ 64) :
    ∀ (cs : GoString) (n : Nat), (∀ c ∈ cs, isDigit c = true) → n ≤ maxVal →
      maxVal < decimalFrom n cs →
      parseUintLoop maxVal n cs = (maxVal, some NumError.ErrRange)
  | [], n, _, hn, hv => by simp [decimalFrom] at hv; omega
  | c :: cs, n, h, hn, hv => by
    have hc : isDigit c = true := h c (List.mem_cons_self _ _)
    simp only [isDigit, Bool.and_eq_true, decide_eq_true_eq] at hc
    rw [decimalFrom_cons] at hv
    have h3 : ¬ (c.toNat - 48 ≥ 10) := by omega
    by_cases h4 : n ≥ uintCutoff
    · simp only [parseUintLoop, hc, and_self, if_true, h3, h4, if_false]
    · have h4' : n < 1844674407370955162 := by unfold uintCutoff at h4; omega
      have e1 : n * 10 % 2 ^ 64 = n * 10 := Nat.mod_eq_of_lt (by omega)
      by_cases h5 : (n * 10 + (c.toNat - 48)) % 2 ^ 64 < n * 10 ∨
          (n * 10 + (c.toNat - 48)) % 2 ^ 64 > maxVal
      · simp only [parseUintLoop, hc, and_self, if_true, h3, h4, if_false, e1, h5]
      · have e2 : (n * 10 + (c.toNat - 48)) % 2 ^ 64 = n * 10 + (c.toNat - 48) := by omega
        have ih := parseUintLoop_range maxVal hm cs (n * 10 + (c.toNat - 48))
          (fun x hx => h x (List.mem_cons_of_mem _ hx)) (by omega) hv
        simp only [parseUintLoop, hc, and_self, if_true, h3, h4, if_false, e1, h5]
        rw [e2]; exact ih

theorem parseUintLoop_nondigit (maxVal : Nat) :
    ∀ (cs : GoString) (n : Nat), (∃ c ∈ cs, isDigit c = false) →
      (parseUintLoop maxVal n cs).2 = some NumError.ErrSyntax ∨
        parseUintLoop maxVal n cs = (maxVal, some NumError.ErrRange)
  | [], _, h => by obtain ⟨c, hc, _⟩ := h; cases hc
  | c :: cs, n, h => by
    by_cases hc : 48 ≤ c.toNat ∧ c.toNat ≤ 57
    · have htl : ∃ x ∈ cs, isDigit x = false := by
        obtain ⟨x, hx, hd⟩ := h
        rcases List.mem_cons.1 hx with rfl | hx
        · simp [isDigit, hc] at hd
        · exact ⟨x, hx, hd⟩
      have h3 : ¬ (c.toNat - 48 ≥ 10) := by omega
      simp only [parseUintLoop, hc, and_self, if_true, h3, if_false]
      split
      · exact Or.inr rfl
      · split
        · exact Or.inr rfl
        · exact parseUintLoop_nondigit maxVal cs _ htl
    · simp only [parseUintLoop, hc, if_false]
      by_cases hl : 97 ≤ lower c ∧ lower c ≤ 122
      · have h3 : (lower c - 97 + 10) % 256 ≥ 10 := by omega
        simp [hl, h3]
      · simp [hl]

theorem atoiFastLoop_digits (w : Nat) (hw : 1 ≤ w) :
    ∀ (cs : GoString) (n : Nat), (∀ c ∈ cs, isDigit c = true) →
      (decimalFrom n cs : Int) < 2 ^ (w - 1) →
      atoiFastLoop w (n : Int) cs = some (decimalFrom n cs : Int)
  | [], n, _, _ => rfl
  | c :: cs, n, h, hv => by
    have hc : isDigit c = true := h c (List.mem_cons_self _ _)
    simp only [isDigit, Bool.and_eq_true, decide_eq_true_eq] at hc
    rw [decimalFrom_cons] at hv ⊢
    have hle := le_decimalFrom cs (n * 10 + (c.toNat - 48))
    have hle' : ((n * 10 + (c.toNat - 48) : Nat) : Int) ≤ (decimalFrom (n * 10 + (c.toNat - 48)) cs : Int) := by
      exact_mod_cast hle
    have ih := atoiFastLoop_digits w hw cs (n * 10 + (c.toNat - 48))
      (fun x hx => h x (List.mem_cons_of_mem _ hx)) hv
    have hch : (c.toNat + 256 - 48) % 256 = c.toNat - 48 := by omega
    have h9 : ¬ (c.toNat - 48 > 9) := by omega
    have hp : (0 : Int) < 2 ^ (w - 1) := by positivity
    have w1 : wrapInt w ((n : Int) * 10) = (n : Int) * 10 :=
      wrapInt_of_range w hw _ (by omega) (by push_cast at hle'; omega)
    have w2 : wrapInt w ((n : Int) * 10 + ((c.toNat - 48 : Nat) : Int)) =
        ((n * 10 + (c.toNat - 48) : Nat) : Int) := by
      rw [wrapInt_of_range w hw _ (by omega) (by push_cast at hle'; omega)]
      push_cast; rfl
    simp only [atoiFastLoop, hch, h9, if_false, w1, w2, ih]

theorem atoiFastLoop_nondigit (w : Nat) :
    ∀ (cs : GoString) (n : Int), (∃ c ∈ cs, isDigit c = false) → atoiFastLoop w n cs = none
  | [], _, h => by obtain ⟨c, hc, _⟩ := h; cases hc
  | c :: cs, n, h => by
    have hlt := c.toNat_lt
    by_cases hc : 48 ≤ c.toNat ∧ c.toNat ≤ 57
    · have htl : ∃ x ∈ cs, isDigit x = false := by
        obtain ⟨x, hx, hd⟩ := h
        rcases List.mem_cons.1 hx with rfl | hx
        · simp [isDigit, hc] at hd
        · exact ⟨x, hx, hd⟩
      have h9 : ¬ ((c.toNat + 256 - 48) % 256 > 9) := by omega
      simp only [atoiFastLoop, h9, if_false]
      exact atoiFastLoop_nondigit w cs _ htl
    · have h9 : (c.toNat + 256 - 48) % 256 > 9 := by omega
      simp only [atoiFastLoop, h9, if_true]

theorem ParseInt_cons (w : Nat) (c0 : UInt8) (t : GoString) :
    ParseInt w (c0 :: t) = parseIntRest w (c0 != 43 && c0 == 45)
      (ParseUint w (if c0 = 43 then t else if c0 = 45 then t else c0 :: t)) := rfl

theorem ParseUint_digits (w : Nat) (hw : w = 32 ∨ w = 64) (ds : GoString) (hne : ds ≠ [])
    (hd : ∀ c ∈ ds, isDigit c = true) :
    ParseUint w ds = if decimalValue ds ≤ 2 ^ w - 1 then (decimalValue ds, none)
      else (2 ^ w - 1, some NumError.ErrRange) := by
  have hm : ((2 ^ w) % 2 ^ 64 + 2 ^ 64 - 1) % 2 ^ 64 = 2 ^ w - 1 := by
    rcases hw with rfl | rfl <;> norm_num
  have hlt : 2 ^ w - 1 < 2 ^ 64 := by
    rcases hw with rfl | rfl <;> norm_num
  unfold ParseUint
  rw [if_neg hne]
  simp only [hm]
  by_cases hv : decimalValue ds ≤ 2 ^ w - 1
  · rw [if_pos hv]
    exact parseUintLoop_digits _ hlt ds 0 hd hv
  · rw [if_neg hv]
    exact parseUintLoop_range _ hlt ds 0 hd (Nat.zero_le _) (by unfold decimalValue at hv; omega)

theorem ParseUint_bad (w : Nat) (hw : w = 32 ∨ w = 64) (s : GoString)
    (hbad : s = [] ∨ ∃ c ∈ s, isDigit c = false) :
    (ParseUint w s).2 = some NumError.ErrSyntax ∨
      ParseUint w s = (2 ^ w - 1, some NumError.ErrRange) := by
  have hm : ((2 ^ w) % 2 ^ 64 + 2 ^ 64 - 1) % 2 ^ 64 = 2 ^ w - 1 := by
    rcases hw with rfl | rfl <;> norm_num
  unfold ParseUint
  by_cases hs : s = []
  · rw [if_pos hs]; exact Or.inl rfl
  · rw [if_neg hs]
    simp only [hm]
    rcases hbad with h | h
    · exact absurd h hs
    · exact parseUintLoop_nondigit _ s 0 h

theorem pow_facts (w : Nat) (hw : w = 32 ∨ w = 64) :
    ∃ P : Nat, 2 ^ (w - 1) = P ∧ 2 ^ w - 1 = 2 * P - 1 ∧ 2 ≤ P ∧ P ≤ 9223372036854775808 ∧
      (2 : Int) ^ (w - 1) = (P : Int) := by
  rcases hw with rfl | rfl
  · exact ⟨2147483648, by norm_num, by norm_num, by norm_num, by norm_num, by norm_num⟩
  · exact ⟨9223372036854775808, by norm_num, by norm_num, by norm_num, by norm_num, by norm_num⟩

theorem wrapInt64_of_range (x : Int) (h1 : -9223372036854775808 ≤ x)
    (h2 : x < 9223372036854775808) : wrapInt 64 x = x := by
  apply wrapInt_of_range 64 (by decide) x
  · have : (2 : Int) ^ (64 - 1) = 9223372036854775808 := by norm_num
    rw [this]; exact h1
  · have : (2 : Int) ^ (64 - 1) = 9223372036854775808 := by norm_num
    rw [this]; exact h2

theorem wrapInt64_min : wrapInt 64 9223372036854775808 = -9223372036854775808 := by
  unfold wrapInt
  norm_num

theorem wrapInt64_neg (x : Nat) (hx : x ≤ 9223372036854775808) :
    wrapInt 64 (-(wrapInt 64 (x : Int))) = -(x : Int) := by
  rcases Nat.lt_or_ge x 9223372036854775808 with h | h
  · rw [wrapInt64_of_range (x : Int) (by omega) (by omega),
      wrapInt64_of_range (-(x : Int)) (by omega) (by omega)]
  · have hx' : x = 9223372036854775808 := by omega
    subst hx'
    have e : ((9223372036854775808 : Nat) : Int) = 9223372036854775808 := by norm_num
    rw [e, wrapInt64_min, neg_neg, wrapInt64_min]

theorem parseIntRest_digits (w : Nat) (hw : w = 32 ∨ w = 64) (neg : Bool) (ds : GoString)
    (hne : ds ≠ []) (hd : ∀ c ∈ ds, isDigit c = true) :
    parseIntRest w neg (ParseUint w ds) =
      if neg then
        (if decimalValue ds ≤ 2 ^ (w - 1) then (-(decimalValue ds : Int), none)
         else (-(2 : Int) ^ (w - 1), some NumError.ErrRange))
      else
        (if decimalValue ds < 2 ^ (w - 1) then ((decimalValue ds : Int), none)
         else ((2 : Int) ^ (w - 1) - 1, some NumError.ErrRange)) := by
  rw [ParseUint_digits w hw ds hne hd]
  generalize decimalValue ds = v
  obtain ⟨P, h1, h2, h3, h4, h5⟩ := pow_facts w hw
  have hP : P % 2 ^ 64 = P := Nat.mod_eq_of_lt (by omega)
  unfold parseIntRest
  rw [h1, h2, h5, hP]
  have wP : wrapInt 64 ((P : Int) - 1) = (P : Int) - 1 :=
    wrapInt64_of_range _ (by omega) (by omega)
  cases neg
  · simp only [Bool.not_false, Bool.true_and, Bool.false_and, decide_eq_true_eq, if_false,
      Bool.false_eq_true]
    by_cases hv : v ≤ 2 * P - 1
    · rw [if_pos hv]
      simp only [Option.some.injEq, reduceCtorEq, if_false]
      by_cases hv2 : v < P
      · rw [if_neg (by omega), if_pos hv2, wrapInt64_of_range _ (by omega) (by omega)]
      · rw [if_pos (by omega), if_neg hv2, wP]
    · rw [if_neg hv]
      simp only [Option.some.injEq, reduceCtorEq, if_false]
      rw [if_pos (by omega), if_neg (by omega), wP]
  · simp only [Bool.not_true, Bool.false_and, Bool.true_and, decide_eq_true_eq, if_false,
      if_true, Bool.false_eq_true]
    by_cases hv : v ≤ 2 * P - 1
    · rw [if_pos hv]
      simp only [Option.some.injEq, reduceCtorEq, if_false]
      by_cases hv2 : v ≤ P
      · rw [if_neg (by omega), if_pos hv2, wrapInt64_neg v (by omega)]
      · rw [if_pos (by omega), if_neg hv2, wrapInt64_neg P h4]
    · rw [if_neg hv]
      simp only [Option.some.injEq, reduceCtorEq, if_false]
      rw [if_pos (by omega), if_neg (by omega), wrapInt64_neg P h4]

theorem parseIntRest_bad (w : Nat) (hw : w = 32 ∨ w = 64) (neg : Bool) (s : GoString)
    (hbad : s = [] ∨ ∃ c ∈ s, isDigit c = false) :
    (parseIntRest w neg (ParseUint w s)).2 ≠ none := by
  obtain ⟨P, h1, h2, h3, h4, h5⟩ := pow_facts w hw
  have hP : P % 2 ^ 64 = P := Nat.mod_eq_of_lt (by omega)
  rcases ParseUint_bad w hw s hbad with h | h
  · unfold parseIntRest
    rw [if_pos h]; simp
  · rw [h]
    unfold parseIntRest
    rw [h1, h2, hP]
    simp only [Option.some.injEq, reduceCtorEq, if_false]
    cases neg
    · simp only [Bool.not_false, Bool.true_and, decide_eq_true_eq]
      rw [if_pos (by omega)]; simp
    · simp only [Bool.not_true, Bool.false_and, Bool.true_and, decide_eq_true_eq, if_false,
        Bool.false_eq_true]
      rw [if_pos (by omega)]; simp

theorem fast_bound (w : Nat) (ds : GoString) (hd : ∀ c ∈ ds, isDigit c = true)
    (hlen : (w = 32 ∧ ds.length < 10) ∨ (w = 64 ∧ ds.length < 19)) :
    decimalValue ds < 2 ^ (w - 1) := by
  have hv := decimalFrom_lt ds 0 hd
  rw [Nat.zero_add, Nat.one_mul] at hv
  rcases hlen with ⟨rfl, hl⟩ | ⟨rfl, hl⟩
  · have : 10 ^ ds.length ≤ 10 ^ 9 := Nat.pow_le_pow_right (by norm_num) (by omega)
    have e : (2 : Nat) ^ (32 - 1) = 2147483648 := by norm_num
    have e2 : (10 : Nat) ^ 9 = 1000000000 := by norm_num
    unfold decimalValue; omega
  · have : 10 ^ ds.length ≤ 10 ^ 18 := Nat.pow_le_pow_right (by norm_num) (by omega)
    have e : (2 : Nat) ^ (64 - 1) = 9223372036854775808 := by norm_num
    have e2 : (10 : Nat) ^ 18 = 1000000000000000000 := by norm_num
    unfold decimalValue; omega

theorem digit_not_sign (c : UInt8) (h : isDigit c = true) : c ≠ 45 ∧ c ≠ 43 := by
  constructor <;> rintro rfl <;> revert h <;> decide

theorem signSplit_length (c0 : UInt8) (t : GoString) :
    (signSplit c0 t).2.length ≤ (c0 :: t).length := by
  unfold signSplit; split_ifs <;> simp

theorem Atoi_slow (w : Nat) (c0 : UInt8) (t : GoString)
    (h : ¬ ((w = 32 ∧ 0 < (c0 :: t).length ∧ (c0 :: t).length < 10) ∨
      (w = 64 ∧ 0 < (c0 :: t).length ∧ (c0 :: t).length < 19))) :
    Atoi w (c0 :: t) =
      (wrapInt w (parseIntRest w (signSplit c0 t).1 (ParseUint w (signSplit c0 t).2)).1,
        (parseIntRest w (signSplit c0 t).1 (ParseUint w (signSplit c0 t).2)).2) := by
  have e45 : (45 : UInt8) ≠ 43 := by decide
  unfold Atoi
  simp only [h, if_false, ParseInt_cons]
  unfold signSplit
  by_cases h45 : c0 = 45
  · subst h45; simp [e45]
  · by_cases h43 : c0 = 43
    · subst h43; simp
    · have b45 : (c0 == 45) = false := by rw [beq_eq_false_iff_ne]; exact h45
      simp [h45, h43, b45]

theorem Atoi_fast (w : Nat) (c0 : UInt8) (t : GoString)
    (h : (w = 32 ∧ 0 < (c0 :: t).length ∧ (c0 :: t).length < 10) ∨
      (w = 64 ∧ 0 < (c0 :: t).length ∧ (c0 :: t).length < 19)) :
    Atoi w (c0 :: t) =
      if (signSplit c0 t).2 = [] then (0, some NumError.ErrSyntax)
      else match atoiFastLoop w 0 (signSplit c0 t).2 with
        | none => (0, some NumError.ErrSyntax)
        | some n => (if (signSplit c0 t).1 then wrapInt w (-n) else n, none) := by
  have e45 : (45 : UInt8) ≠ 43 := by decide
  have e43 : (43 : UInt8) ≠ 45 := by decide
  unfold Atoi
  simp only [h, if_true]
  unfold signSplit
  by_cases h45 : c0 = 45
  · subst h45
    cases t <;> simp
  · by_cases h43 : c0 = 43
    · subst h43
      cases t <;> simp [e43]
    · simp [h45, h43]

theorem Atoi_cons_ok (w : Nat) (hw : w = 32 ∨ w = 64) (c0 : UInt8) (t : GoString)
    (hne : (signSplit c0 t).2 ≠ []) (hd : ∀ c ∈ (signSplit c0 t).2, isDigit c = true)
    (hr : if (signSplit c0 t).1 then decimalValue (signSplit c0 t).2 ≤ 2 ^ (w - 1)
      else decimalValue (signSplit c0 t).2 < 2 ^ (w - 1)) :
    Atoi w (c0 :: t) =
      (if (signSplit c0 t).1 then -(decimalValue (signSplit c0 t).2 : Int)
        else (decimalValue (signSplit c0 t).2 : Int), none) := by
  have hw1 : 1 ≤ w := by omega
  have hlen := signSplit_length c0 t
  revert hne hd hr hlen
  generalize hneg : (signSplit c0 t).1 = neg
  generalize hds : (signSplit c0 t).2 = ds
  intro hne hd hr hlen
  have hpow : ((2 ^ (w - 1) : Nat) : Int) = (2 : Int) ^ (w - 1) := by push_cast; rfl
  by_cases hfast : (w = 32 ∧ 0 < (c0 :: t).length ∧ (c0 :: t).length < 10) ∨
      (w = 64 ∧ 0 < (c0 :: t).length ∧ (c0 :: t).length < 19)
  · rw [Atoi_fast w c0 t hfast, hds, if_neg hne]
    have hb : decimalValue ds < 2 ^ (w - 1) :=
      fast_bound w ds hd (by rcases hfast with ⟨a, _, b⟩ | ⟨a, _, b⟩ <;> [left; right] <;>
        exact ⟨a, by omega⟩)
    have hbi : ((decimalFrom 0 ds : Nat) : Int) < 2 ^ (w - 1) := by
      rw [← hpow]; exact_mod_cast hb
    have hl := atoiFastLoop_digits w hw1 ds 0 hd hbi
    rw [Nat.cast_zero] at hl
    rw [hl, hneg]
    cases neg
    · rfl
    · simp only [if_true]
      rw [wrapInt_of_range w hw1 _ (by omega) (by omega)]
      rfl
  · rw [Atoi_slow w c0 t hfast, hds, hneg, parseIntRest_digits w hw neg ds hne hd]
    cases neg
    · simp only [Bool.false_eq_true, if_false] at hr ⊢
      rw [if_pos hr]
      have hbi : (decimalValue ds : Int) < 2 ^ (w - 1) := by
        rw [← hpow]; exact_mod_cast hr
      simp only
      rw [wrapInt_of_range w hw1 _ (by omega) hbi]
    · simp only [if_true] at hr ⊢
      rw [if_pos hr]
      have hbi : (decimalValue ds : Int) ≤ 2 ^ (w - 1) := by
        rw [← hpow]; exact_mod_cast hr
      simp only
      by_cases hlt : (decimalValue ds : Int) < 2 ^ (w - 1)
      · rw [wrapInt_of_range w hw1 _ (by omega) (by omega)]
      · have he : (decimalValue ds : Int) = 2 ^ (w - 1) := by omega
        rw [he]
        have hp : (2 : Int) ^ w = 2 * 2 ^ (w - 1) := by
          obtain ⟨k, rfl⟩ : ∃ k, w = k + 1 := ⟨w - 1, by omega⟩
          simp [pow_succ, mul_comm]
        have hpos : (0 : Int) < 2 ^ (w - 1) := by positivity
        unfold wrapInt
        rw [neg_add_cancel, Int.zero_emod, zero_sub]

theorem Atoi_cons_range (w : Nat) (hw : w = 32 ∨ w = 64) (c0 : UInt8) (t : GoString)
    (hne : (signSplit c0 t).2 ≠ []) (hd : ∀ c ∈ (signSplit c0 t).2, isDigit c = true)
    (hr : ¬ (if (signSplit c0 t).1 then decimalValue (signSplit c0 t).2 ≤ 2 ^ (w - 1)
      else decimalValue (signSplit c0 t).2 < 2 ^ (w - 1))) :
    (Atoi w (c0 :: t)).2 = some NumError.ErrRange := by
  have hlen := signSplit_length c0 t
  revert hne hd hr hlen
  generalize hneg : (signSplit c0 t).1 = neg
  generalize hds : (signSplit c0 t).2 = ds
  intro hne hd hr hlen
  by_cases hfast : (w = 32 ∧ 0 < (c0 :: t).length ∧ (c0 :: t).length < 10) ∨
      (w = 64 ∧ 0 < (c0 :: t).length ∧ (c0 :: t).length < 19)
  · exfalso
    have hb : decimalValue ds < 2 ^ (w - 1) :=
      fast_bound w ds hd (by rcases hfast with ⟨a, _, b⟩ | ⟨a, _, b⟩ <;> [left; right] <;>
        exact ⟨a, by omega⟩)
    cases neg
    · simp only [Bool.false_eq_true, if_false] at hr; exact hr hb
    · simp only [if_true] at hr; omega
  · rw [Atoi_slow w c0 t hfast, hds, hneg, parseIntRest_digits w hw neg ds hne hd]
    cases neg
    · simp only [Bool.false_eq_true, if_false] at hr ⊢
      rw [if_neg hr]
    · simp only [if_true] at hr ⊢
      rw [if_neg hr]

theorem Atoi_cons_bad (w : Nat) (hw : w = 32 ∨ w = 64) (c0 : UInt8) (t : GoString)
    (hbad : (signSplit c0 t).2 = [] ∨ ∃ c ∈ (signSplit c0 t).2, isDigit c = false) :
    (Atoi w (c0 :: t)).2 ≠ none := by
  by_cases hfast : (w = 32 ∧ 0 < (c0 :: t).length ∧ (c0 :: t).length < 10) ∨
      (w = 64 ∧ 0 < (c0 :: t).length ∧ (c0 :: t).length < 19)
  · rw [Atoi_fast w c0 t hfast]
    by_cases he : (signSplit c0 t).2 = []
    · rw [if_pos he]; simp
    · rw [if_neg he]
      rcases hbad with h | h
      · exact absurd h he
      · rw [atoiFastLoop_nondigit w _ 0 h]; simp
  · rw [Atoi_slow w c0 t hfast]
    exact parseIntRest_bad w hw _ _ hbad

theorem Atoi_nil (w : Nat) : (Atoi w []).2 = some NumError.ErrSyntax := by
  unfold Atoi
  simp [ParseInt]

/-! ### Independence of the iteration order -/

theorem split_matched (w : Nat) (order : List (GoString × BrowseType))
    (hperm : order.Perm BrowseTypePrefix) (arg : GoString) (e : GoString × BrowseType)
    (he : e ∈ BrowseTypePrefix) (hp : HasPrefix arg e.1 = true) :
    splitPrefixAndNumber w order arg = matched w e arg :=
  split_of_unique_match w arg e order (hperm.mem_iff.2 he) hp
    (fun e2 h2 p2 => table_unambiguous arg e2 e (hperm.mem_iff.1 h2) he p2 hp)

theorem split_unmatched (w : Nat) (order : List (GoString × BrowseType))
    (hperm : order.Perm BrowseTypePrefix) (arg : GoString)
    (hno : ∀ e ∈ BrowseTypePrefix, HasPrefix arg e.1 = false) :
    splitPrefixAndNumber w order arg = (Issue, 0, some (str "Invalid arg: " ++ arg)) :=
  split_of_no_match w arg order (fun e he => hno e (hperm.mem_iff.1 he))

theorem split_cases (w : Nat) (order : List (GoString × BrowseType))
    (hperm : order.Perm BrowseTypePrefix) (arg : GoString) :
    (∃ e ∈ BrowseTypePrefix, HasPrefix arg e.1 = true ∧
        splitPrefixAndNumber w order arg = matched w e arg) ∨
    ((∀ e ∈ BrowseTypePrefix, HasPrefix arg e.1 = false) ∧
        splitPrefixAndNumber w order arg = (Issue, 0, some (str "Invalid arg: " ++ arg))) := by
  by_cases h : ∃ e ∈ BrowseTypePrefix, HasPrefix arg e.1 = true
  · obtain ⟨e, he, hp⟩ := h
    exact Or.inl ⟨e, he, hp, split_matched w order hperm arg e he hp⟩
  · have hno : ∀ e ∈ BrowseTypePrefix, HasPrefix arg e.1 = false := by
      intro e he
      cases hh : HasPrefix arg e.1
      · rfl
      · exact absurd ⟨e, he, hh⟩ h
    exact Or.inr ⟨hno, split_unmatched w order hperm arg hno⟩

theorem matched_append (w : Nat) (k : GoString) (v : BrowseType) (rem : GoString) :
    matched w (k, v) (k ++ rem) =
      if (Atoi w rem).2 ≠ none then
        (Issue, 0, some (str "Invalid browsing number: " ++ (k ++ rem)))
      else (v, (Atoi w rem).1, none) := by
  unfold matched
  simp only [TrimPrefix_append]

theorem exists_nondigit_of_not_all (ds : GoString) (h : ¬ ∀ c ∈ ds, isDigit c = true) :
    ∃ c ∈ ds, isDigit c = false := by
  by_contra hc
  apply h
  intro c hcm
  cases hd : isDigit c
  · exact absurd ⟨c, hcm, hd⟩ hc
  · rfl

theorem signSplit_form (c0 : UInt8) (t : GoString) :
    (c0 :: t = (signSplit c0 t).2 ∧ (signSplit c0 t).1 = false) ∨
    (c0 :: t = 43 :: (signSplit c0 t).2 ∧ (signSplit c0 t).1 = false) ∨
    (c0 :: t = 45 :: (signSplit c0 t).2 ∧ (signSplit c0 t).1 = true) := by
  unfold signSplit
  by_cases h45 : c0 = 45
  · subst h45; simp
  · by_cases h43 : c0 = 43
    · subst h43; simp
    · simp [h45, h43]

theorem Atoi_ok_form (w : Nat) (hw : w = 32 ∨ w = 64) (s : GoString)
    (hok : (Atoi w s).2 = none) :
    ∃ (neg : Bool) (ds : GoString), ds ≠ [] ∧ (∀ c ∈ ds, isDigit c = true) ∧
      ((s = ds ∧ neg = false) ∨ (s = 43 :: ds ∧ neg = false) ∨ (s = 45 :: ds ∧ neg = true)) ∧
      (Atoi w s).1 = (if neg then -(decimalValue ds : Int) else (decimalValue ds : Int)) ∧
      (if neg then decimalValue ds ≤ 2 ^ (w - 1) else decimalValue ds < 2 ^ (w - 1)) := by
  cases s with
  | nil => rw [Atoi_nil] at hok; cases hok
  | cons c0 t =>
    by_cases hne : (signSplit c0 t).2 = []
    · exact absurd hok (Atoi_cons_bad w hw c0 t (Or.inl hne))
    · by_cases hd : ∀ c ∈ (signSplit c0 t).2, isDigit c = true
      · by_cases hr : (if (signSplit c0 t).1 then decimalValue (signSplit c0 t).2 ≤ 2 ^ (w - 1)
            else decimalValue (signSplit c0 t).2 < 2 ^ (w - 1))
        · refine ⟨(signSplit c0 t).1, (signSplit c0 t).2, hne, hd, ?_, ?_, hr⟩
          · rcases signSplit_form c0 t with h | h | h
            · exact Or.inl h
            · exact Or.inr (Or.inl h)
            · exact Or.inr (Or.inr h)
          · rw [Atoi_cons_ok w hw c0 t hne hd hr]
        · rw [Atoi_cons_range w hw c0 t hne hd hr] at hok; cases hok
      · exact absurd hok (Atoi_cons_bad w hw c0 t (Or.inr (exists_nondigit_of_not_all _ hd)))

/-! ### `Atoi` on digits and on a minus sign followed by digits -/

theorem signSplit_digit (c0 : UInt8) (t : GoString) (h : isDigit c0 = true) :
    signSplit c0 t = (false, c0 :: t) := by
  obtain ⟨h45, h43⟩ := digit_not_sign c0 h
  unfold signSplit
  rw [if_neg h45, if_neg h43]

theorem signSplit_minus (t : GoString) : signSplit 45 t = (true, t) := rfl

theorem signSplit_plus (t : GoString) : signSplit 43 t = (false, t) := rfl

theorem Atoi_digits (w : Nat) (hw : w = 32 ∨ w = 64) (ds : GoString) (hne : ds ≠ [])
    (hd : ∀ c ∈ ds, isDigit c = true) :
    (decimalValue ds < 2 ^ (w - 1) → Atoi w ds = ((decimalValue ds : Int), none)) ∧
    (2 ^ (w - 1) ≤ decimalValue ds → (Atoi w ds).2 = some NumError.ErrRange) := by
  cases ds with
  | nil => exact absurd rfl hne
  | cons c0 t =>
    have hs := signSplit_digit c0 t (hd c0 (List.mem_cons_self _ _))
    constructor
    · intro hv
      have := Atoi_cons_ok w hw c0 t (by rw [hs]; exact hne) (by rw [hs]; exact hd)
        (by rw [hs]; exact hv)
      rw [hs] at this; exact this
    · intro hv
      exact Atoi_cons_range w hw c0 t (by rw [hs]; exact hne) (by rw [hs]; exact hd)
        (by rw [hs]; simp only [Bool.false_eq_true, if_false]; omega)

theorem Atoi_minus (w : Nat) (hw : w = 32 ∨ w = 64) (ds : GoString) (hne : ds ≠ [])
    (hd : ∀ c ∈ ds, isDigit c = true) (hv : decimalValue ds ≤ 2 ^ (w - 1)) :
    Atoi w (45 :: ds) = (-(decimalValue ds : Int), none) :=
  Atoi_cons_ok w hw 45 ds hne hd hv

/-! ### The `%d` verb -/

theorem decimalFrom_append (n : Nat) (a b : GoString) :
    decimalFrom n (a ++ b) = decimalFrom (decimalFrom n a) b := by
  unfold decimalFrom; rw [List.foldl_append]

theorem fmtDigits_spec : ∀ (fuel u : Nat) (buf : GoString), u < 10 ^ (fuel + 1) →
    ∃ ds : GoString, fmtDigits fuel u buf = ds ++ buf ∧ ds ≠ [] ∧
      (∀ c ∈ ds, isDigit c = true) ∧ decimalValue ds = u ∧ ds.length ≤ fuel + 1
  | 0, u, buf, h => by
    have hu : u < 10 := by simpa using h
    have ht : (UInt8.ofNat (48 + u)).toNat = 48 + u :=
      UInt8.toNat_ofNat_of_lt (by unfold UInt8.size; omega)
    refine ⟨[UInt8.ofNat (48 + u)], rfl, by simp, ?_, ?_, by simp⟩
    · intro c hc
      rw [List.mem_singleton] at hc; subst hc
      simp only [isDigit, ht, Bool.and_eq_true, decide_eq_true_eq]; omega
    · simp only [decimalValue, decimalFrom, List.foldl, ht]; omega
  | fuel + 1, u, buf, h => by
    by_cases hu : u ≥ 10
    · have hq : u / 10 < 10 ^ (fuel + 1) := by
        rw [pow_succ] at h; omega
      obtain ⟨ds, hds, hne, hd, hv, hl⟩ :=
        fmtDigits_spec fuel (u / 10) (UInt8.ofNat (48 + u - u / 10 * 10) :: buf) hq
      have ht : (UInt8.ofNat (48 + u - u / 10 * 10)).toNat = 48 + u % 10 := by
        rw [UInt8.toNat_ofNat_of_lt (by unfold UInt8.size; omega)]; omega
      refine ⟨ds ++ [UInt8.ofNat (48 + u - u / 10 * 10)], ?_, by simp, ?_, ?_, by simp; omega⟩
      · simp only [fmtDigits, hu, if_true, hds, List.append_assoc, List.singleton_append]
      · intro c hc
        rcases List.mem_append.1 hc with hc | hc
        · exact hd c hc
        · rw [List.mem_singleton] at hc; subst hc
          simp only [isDigit, ht, Bool.and_eq_true, decide_eq_true_eq]; omega
      · unfold decimalValue at hv ⊢
        rw [decimalFrom_append, hv]
        simp only [decimalFrom, List.foldl, ht]; omega
    · have hu' : u < 10 := by omega
      have ht : (UInt8.ofNat (48 + u)).toNat = 48 + u :=
        UInt8.toNat_ofNat_of_lt (by unfold UInt8.size; omega)
      refine ⟨[UInt8.ofNat (48 + u)], ?_, by simp, ?_, ?_, by simp⟩
      · simp only [fmtDigits, hu, if_false, List.singleton_append]
      · intro c hc
        rw [List.mem_singleton] at hc; subst hc
        simp only [isDigit, ht, Bool.and_eq_true, decide_eq_true_eq]; omega
      · simp only [decimalValue, decimalFrom, List.foldl, ht]; omega

theorem fmtInt_nonneg (n : Int) (h0 : 0 ≤ n) (h1 : n < 9223372036854775808) :
    ∃ ds : GoString, fmtInt n = ds ∧ ds ≠ [] ∧ (∀ c ∈ ds, isDigit c = true) ∧
      (decimalValue ds : Int) = n := by
  have hu : (n % 2 ^ 64).toNat = n.toNat := by
    rw [Int.emod_eq_of_lt h0 (by omega)]
  have hcast : ((n.toNat : Nat) : Int) = n := Int.toNat_of_nonneg h0
  have hwrap : wrapInt 64 (n.toNat : Int) = n := by
    rw [hcast]; exact wrapInt64_of_range n (by omega) h1
  have hneg : ¬ (wrapInt 64 (n.toNat : Int) < 0) := by rw [hwrap]; omega
  obtain ⟨ds, hds, hne, hd, hv, _⟩ := fmtDigits_spec 20 n.toNat [] (by norm_num; omega)
  refine ⟨ds, ?_, hne, hd, by rw [hv]; exact hcast⟩
  unfold fmtInt
  simp only [hu, hneg, decide_False, Bool.false_eq_true, if_false, hds, List.append_nil]

theorem fmtInt_neg (n : Int) (h0 : n < 0) (h1 : -9223372036854775808 ≤ n) :
    ∃ ds : GoString, fmtInt n = 45 :: ds ∧ ds ≠ [] ∧ (∀ c ∈ ds, isDigit c = true) ∧
      (decimalValue ds : Int) = -n := by
  have hm : n % 2 ^ 64 = n + 18446744073709551616 := by
    have e : (2 : Int) ^ 64 = 18446744073709551616 := by norm_num
    rw [e]; omega
  have hcast : (((n % 2 ^ 64).toNat : Nat) : Int) = n + 18446744073709551616 := by
    rw [Int.toNat_of_nonneg (by omega), hm]
  have hwrap : wrapInt 64 ((n % 2 ^ 64).toNat : Int) = n := by
    rw [hcast]; unfold wrapInt
    have e : (2 : Int) ^ 64 = 18446744073709551616 := by norm_num
    have e2 : (2 : Int) ^ (64 - 1) = 9223372036854775808 := by norm_num
    rw [e, e2]; omega
  have hneg : wrapInt 64 ((n % 2 ^ 64).toNat : Int) < 0 := by rw [hwrap]; exact h0
  have hu1 : (2 ^ 64 - (n % 2 ^ 64).toNat) % 2 ^ 64 = (-n).toNat := by
    have e : (2 : Nat) ^ 64 = 18446744073709551616 := by norm_num
    rw [e]; omega
  obtain ⟨ds, hds, hne, hd, hv, _⟩ := fmtDigits_spec 20 (-n).toNat [] (by norm_num; omega)
  refine ⟨ds, ?_, hne, hd, by rw [hv]; exact Int.toNat_of_nonneg (by omega)⟩
  unfold fmtInt
  simp only [hneg, decide_True, if_true, hu1, hds, List.append_nil]

/-! ### The reference resolver -/

theorem HasPrefix_append (k rem : GoString) : HasPrefix (k ++ rem) k = true :=
  (HasPrefix_iff _ _).2 ⟨rem, rfl⟩

theorem split_marker (w : Nat) (order : List (GoString × BrowseType))
    (hperm : order.Perm BrowseTypePrefix) (k : GoString) (v : BrowseType)
    (hk : (k, v) ∈ BrowseTypePrefix) (rem : GoString) :
    splitPrefixAndNumber w order (k ++ rem) =
      if (Atoi w rem).2 ≠ none then
        (Issue, 0, some (str "Invalid browsing number: " ++ (k ++ rem)))
      else (v, (Atoi w rem).1, none) := by
  rw [split_matched w order hperm (k ++ rem) (k, v) hk (HasPrefix_append k rem),
    matched_append]

theorem split_marker_digits (w : Nat) (hw : w = 32 ∨ w = 64)
    (order : List (GoString × BrowseType)) (hperm : order.Perm BrowseTypePrefix)
    (k : GoString) (v : BrowseType) (hk : (k, v) ∈ BrowseTypePrefix)
    (digits : GoString) (hne : digits ≠ []) (hd : ∀ c ∈ digits, isDigit c = true) :
    (decimalValue digits < 2 ^ (w - 1) →
      splitPrefixAndNumber w order (k ++ digits) = (v, (decimalValue digits : Int), none)) ∧
    (2 ^ (w - 1) ≤ decimalValue digits →
      splitPrefixAndNumber w order (k ++ digits) =
        (Issue, 0, some (str "Invalid browsing number: " ++ (k ++ digits)))) := by
  obtain ⟨h1, h2⟩ := Atoi_digits w hw digits hne hd
  constructor
  · intro hv
    rw [split_marker w order hperm k v hk, h1 hv]
    simp
  · intro hv
    rw [split_marker w order hperm k v hk, h2 hv]
    simp

theorem issue_marker_mem (marker : GoString) (hm : marker ∈ [str "#", str "i", str "I"]) :
    (marker, Issue) ∈ BrowseTypePrefix := by
  simp only [List.mem_cons, List.mem_singleton, List.not_mem_nil, or_false] at hm
  rcases hm with rfl | rfl | rfl <;> decide

theorem mergeRequest_marker_mem (marker : GoString)
    (hm : marker ∈ [str "!", str "m", str "M"]) :
    (marker, MergeRequest) ∈ BrowseTypePrefix := by
  simp only [List.mem_cons, List.mem_singleton, List.not_mem_nil, or_false] at hm
  rcases hm with rfl | rfl | rfl <;> decide

theorem key_mem (k : GoString) (hk : k ∈ BrowseTypePrefix.map Prod.fst) :
    ∃ v, (k, v) ∈ BrowseTypePrefix := by
  rw [List.mem_map] at hk
  obtain ⟨⟨k2, v⟩, he, rfl⟩ := hk
  exact ⟨v, he⟩

theorem messages_ne (arg : GoString) :
    str "Invalid browsing number: " ++ arg ≠ str "Invalid arg: " ++ arg := by
  have e1 : str "Invalid arg: " = [73, 110, 118, 97, 108, 105, 100, 32, 97, 114, 103, 58, 32] := by
    decide
  have e2 : str "Invalid browsing number: " = 73 :: 110 :: 118 :: 97 :: 108 :: 105 :: 100 ::
      32 :: 98 :: (str "rowsing number: ") := by decide
  rw [e1, e2]
  intro h
  simp only [List.cons_append, List.cons.injEq] at h
  exact absurd h.2.2.2.2.2.2.2.2.1 (by decide)

/-- C1 (amended): a marker of an issue followed by a non-empty string of decimal
digits (any length, leading zeros allowed) resolves, in every iteration order
of the table, to (Issue, value, nil) when the value is below 2^(intSize-1),
and fails with "Invalid browsing number: " and the whole argument when the
value is 2^(intSize-1) or more. -/
theorem splitPrefixAndNumber_issue (w : Nat) (hw : w = 32 ∨ w = 64)
    (order : List (GoString × BrowseType)) (hperm : order.Perm BrowseTypePrefix)
    (marker : GoString) (hm : marker ∈ [str "#", str "i", str "I"])
    (digits : GoString) (hne : digits ≠ []) (hd : ∀ c ∈ digits, isDigit c = true) :
    (decimalValue digits < 2 ^ (w - 1) →
      splitPrefixAndNumber w order (marker ++ digits) =
        (Issue, (decimalValue digits : Int), none)) ∧
    (2 ^ (w - 1) ≤ decimalValue digits →
      splitPrefixAndNumber w order (marker ++ digits) =
        (Issue, 0, some (str "Invalid browsing number: " ++ (marker ++ digits)))) :=
  split_marker_digits w hw order hperm marker Issue (issue_marker_mem marker hm) digits hne hd

/-- Witness of C1: "#7" gives (Issue, 7, nil). -/
theorem splitPrefixAndNumber_issue_witness :
    splitPrefixAndNumber 64 BrowseTypePrefix (str "#7") = (Issue, 7, none) :=
  (splitPrefixAndNumber_issue 64 (Or.inr rfl) BrowseTypePrefix (List.Perm.refl _)
    (str "#") (by decide) (str "7") (by decide) (by decide)).1 (by decide)

/-- Counterexample to C1 as stated: "#" followed by twenty nines is a marker
followed by decimal digits, and it is rejected. -/
theorem splitPrefixAndNumber_issue_overflow :
    str "99999999999999999999" ≠ [] ∧
    (∀ c ∈ str "99999999999999999999", isDigit c = true) ∧
    splitPrefixAndNumber 64 BrowseTypePrefix (str "#" ++ str "99999999999999999999") =
      (Issue, 0, some (str "Invalid browsing number: #99999999999999999999")) ∧
    splitPrefixAndNumber 64 BrowseTypePrefix (str "#" ++ str "99999999999999999999") ≠
      (Issue, (decimalValue (str "99999999999999999999") : Int), none) := by
  decide

/-- C2 (amended): a marker of a merge request followed by a non-empty string
of decimal digits resolves, in every iteration order of the table, to
(MergeRequest, value, nil) when the value is below 2^(intSize-1), and fails
with "Invalid browsing number: " and the whole argument otherwise. -/
theorem splitPrefixAndNumber_mergeRequest (w : Nat) (hw : w = 32 ∨ w = 64)
    (order : List (GoString × BrowseType)) (hperm : order.Perm BrowseTypePrefix)
    (marker : GoString) (hm : marker ∈ [str "!", str "m", str "M"])
    (digits : GoString) (hne : digits ≠ []) (hd : ∀ c ∈ digits, isDigit c = true) :
    (decimalValue digits < 2 ^ (w - 1) →
      splitPrefixAndNumber w order (marker ++ digits) =
        (MergeRequest, (decimalValue digits : Int), none)) ∧
    (2 ^ (w - 1) ≤ decimalValue digits →
      splitPrefixAndNumber w order (marker ++ digits) =
        (Issue, 0, some (str "Invalid browsing number: " ++ (marker ++ digits)))) :=
  split_marker_digits w hw order hperm marker MergeRequest
    (mergeRequest_marker_mem marker hm) digits hne hd

/-- Witness of C2: "!34" gives (MergeRequest, 34, nil). -/
theorem splitPrefixAndNumber_mergeRequest_witness :
    splitPrefixAndNumber 64 BrowseTypePrefix (str "!34") = (MergeRequest, 34, none) :=
  (splitPrefixAndNumber_mergeRequest 64 (Or.inr rfl) BrowseTypePrefix (List.Perm.refl _)
    (str "!") (by decide) (str "34") (by decide) (by decide)).1 (by decide)

/-- Counterexample to C2 as stated: "m" followed by 9223372036854775808
(2^63) is a marker followed by decimal digits, and it is rejected. -/
theorem splitPrefixAndNumber_mergeRequest_overflow :
    str "9223372036854775808" ≠ [] ∧
    (∀ c ∈ str "9223372036854775808", isDigit c = true) ∧
    splitPrefixAndNumber 64 BrowseTypePrefix (str "m" ++ str "9223372036854775808") =
      (Issue, 0, some (str "Invalid browsing number: m9223372036854775808")) ∧
    splitPrefixAndNumber 64 BrowseTypePrefix (str "m" ++ str "9223372036854775808") ≠
      (MergeRequest, (decimalValue (str "9223372036854775808") : Int), none) := by
  decide

theorem no_key_iff (arg : GoString) :
    (∀ k ∈ BrowseTypePrefix.map Prod.fst, ¬ k <+: arg) ↔
      ∀ e ∈ BrowseTypePrefix, HasPrefix arg e.1 = false := by
  constructor
  · intro h e he
    cases hh : HasPrefix arg e.1
    · rfl
    · exact absurd ((HasPrefix_iff _ _).1 hh) (h e.1 (List.mem_map_of_mem _ he))
  · intro h k hk hp
    obtain ⟨v, hv⟩ := key_mem k hk
    have := h (k, v) hv
    rw [(HasPrefix_iff _ _).2 hp] at this
    cases this

theorem matched_error_ne (w : Nat) (e : GoString × BrowseType) (arg : GoString) :
    (matched w e arg).2.2 ≠ some (str "Invalid arg: " ++ arg) := by
  unfold matched
  split_ifs with h
  · intro hh
    exact messages_ne arg (Option.some.inj hh)
  · intro hh; cases hh

/-- C3: for every argument and every iteration order of the table,
splitPrefixAndNumber fails with the message "Invalid arg: " followed by the
unchanged argument if and only if no key of the prefix table is a prefix of
the argument. -/
theorem splitPrefixAndNumber_invalid_arg (w : Nat)
    (order : List (GoString × BrowseType)) (hperm : order.Perm BrowseTypePrefix)
    (arg : GoString) :
    (splitPrefixAndNumber w order arg).2.2 = some (str "Invalid arg: " ++ arg) ↔
      ∀ k ∈ BrowseTypePrefix.map Prod.fst, ¬ k <+: arg := by
  rw [no_key_iff]
  rcases split_cases w order hperm arg with ⟨e, he, hp, hr⟩ | ⟨hno, hr⟩
  · rw [hr]
    constructor
    · intro h; exact absurd h (matched_error_ne w e arg)
    · intro h
      have := h e he
      rw [hp] at this; cases this
  · rw [hr]
    exact ⟨fun _ => hno, fun _ => rfl⟩

/-- Witness of C3: no key is a prefix of "x12" nor of the empty string, and
both fail with "Invalid arg: " and the argument. -/
theorem splitPrefixAndNumber_invalid_arg_witness :
    (splitPrefixAndNumber 64 BrowseTypePrefix (str "x12")).2.2 = some (str "Invalid arg: x12") ∧
    (splitPrefixAndNumber 64 BrowseTypePrefix (str "")).2.2 = some (str "Invalid arg: ") :=
  ⟨(splitPrefixAndNumber_invalid_arg 64 BrowseTypePrefix (List.Perm.refl _) (str "x12")).2
      (by decide),
   (splitPrefixAndNumber_invalid_arg 64 BrowseTypePrefix (List.Perm.refl _) (str "")).2
      (by decide)⟩

theorem Atoi_bad_form (w : Nat) (hw : w = 32 ∨ w = 64) (rem : GoString)
    (hbad : rem = [] ∨ (∃ c ∈ rem, isDigit c = false ∧ c ≠ 43 ∧ c ≠ 45) ∨
      (∃ c ∈ rem.tail, isDigit c = false)) :
    (Atoi w rem).2 ≠ none := by
  intro hok
  obtain ⟨neg, ds, hne, hd, hform, _, _⟩ := Atoi_ok_form w hw rem hok
  have hfalse : ∀ c, isDigit c = true → isDigit c = false → False := by
    intro c h1 h2; rw [h1] at h2; cases h2
  rcases hbad with h | ⟨c, hc, hnd, h43, h45⟩ | ⟨c, hc, hnd⟩
  · rcases hform with ⟨rfl, _⟩ | ⟨rfl, _⟩ | ⟨rfl, _⟩
    · exact hne h
    · cases h
    · cases h
  · rcases hform with ⟨rfl, _⟩ | ⟨rfl, _⟩ | ⟨rfl, _⟩
    · exact hfalse c (hd c hc) hnd
    · rcases List.mem_cons.1 hc with rfl | hc
      · exact h43 rfl
      · exact hfalse c (hd c hc) hnd
    · rcases List.mem_cons.1 hc with rfl | hc
      · exact h45 rfl
      · exact hfalse c (hd c hc) hnd
  · rcases hform with ⟨rfl, _⟩ | ⟨rfl, _⟩ | ⟨rfl, _⟩
    · exact hfalse c (hd c (List.mem_of_mem_tail hc)) hnd
    · exact hfalse c (hd c hc) hnd
    · exact hfalse c (hd c hc) hnd

/-- C4: when the argument is a key of the prefix table followed by a
remainder on which strconv.Atoi returns an error, splitPrefixAndNumber fails,
in every iteration order, with "Invalid browsing number: " followed by the
whole original argument; and Atoi returns an error on the empty remainder, on
a remainder holding a byte that is neither a digit nor a sign (so a second
marker), and on a remainder with a non-digit after its first byte. -/
theorem splitPrefixAndNumber_invalid_number (w : Nat) (hw : w = 32 ∨ w = 64)
    (order : List (GoString × BrowseType)) (hperm : order.Perm BrowseTypePrefix)
    (k : GoString) (hk : k ∈ BrowseTypePrefix.map Prod.fst) (rem : GoString) :
    ((Atoi w rem).2 ≠ none →
      splitPrefixAndNumber w order (k ++ rem) =
        (Issue, 0, some (str "Invalid browsing number: " ++ (k ++ rem)))) ∧
    ((rem = [] ∨ (∃ c ∈ rem, isDigit c = false ∧ c ≠ 43 ∧ c ≠ 45) ∨
        (∃ c ∈ rem.tail, isDigit c = false)) → (Atoi w rem).2 ≠ none) := by
  obtain ⟨v, hv⟩ := key_mem k hk
  refine ⟨fun hbad => ?_, Atoi_bad_form w hw rem⟩
  rw [split_marker w order hperm k v hv, if_pos hbad]

/-- Witness of C4: "#abc", "#" and "i#5" fail with "Invalid browsing number: "
and the whole argument. -/
theorem splitPrefixAndNumber_invalid_number_witness :
    splitPrefixAndNumber 64 BrowseTypePrefix (str "#abc") =
      (Issue, 0, some (str "Invalid browsing number: #abc")) ∧
    splitPrefixAndNumber 64 BrowseTypePrefix (str "#") =
      (Issue, 0, some (str "Invalid browsing number: #")) ∧
    splitPrefixAndNumber 64 BrowseTypePrefix (str "i#5") =
      (Issue, 0, some (str "Invalid browsing number: i#5")) :=
  ⟨(splitPrefixAndNumber_invalid_number 64 (Or.inr rfl) BrowseTypePrefix (List.Perm.refl _)
      (str "#") (by decide) (str "abc")).1 (by decide),
   (splitPrefixAndNumber_invalid_number 64 (Or.inr rfl) BrowseTypePrefix (List.Perm.refl _)
      (str "#") (by decide) (str "")).1 (by decide),
   (splitPrefixAndNumber_invalid_number 64 (Or.inr rfl) BrowseTypePrefix (List.Perm.refl _)
      (str "i") (by decide) (str "#5")).1 (by decide)⟩

theorem HasPrefix_split (arg k : GoString) (h : HasPrefix arg k = true) :
    arg = k ++ TrimPrefix arg k := by
  obtain ⟨t, rfl⟩ := (HasPrefix_iff _ _).1 h
  rw [TrimPrefix_append]

/-- Counterexample to C5 as stated: "#-5" succeeds with the negative number -5
and "#+5" succeeds with 5; their remainders "-5" and "+5" start with a sign,
which is not a digit. -/
theorem splitPrefixAndNumber_signed_accepted :
    splitPrefixAndNumber 64 BrowseTypePrefix (str "#-5") = (Issue, -5, none) ∧
    (splitPrefixAndNumber 64 BrowseTypePrefix (str "#-5")).2.1 < 0 ∧
    TrimPrefix (str "#-5") (str "#") = str "-5" ∧
    ¬ (∀ c ∈ str "-5", isDigit c = true) ∧
    splitPrefixAndNumber 64 BrowseTypePrefix (str "#+5") = (Issue, 5, none) ∧
    ¬ (∀ c ∈ str "+5", isDigit c = true) := by
  decide

/-- C5 (amended): when splitPrefixAndNumber succeeds, the argument is a key of
the table followed by a non-empty string of decimal digits with an optional
leading sign "+" or "-", the returned type is the one of the key, the returned
number is the value of the digits when there is no sign or the sign is "+"
and minus the value of the digits (zero or negative) when the sign is "-",
and it lies in the range of int, from -2^(intSize-1) to 2^(intSize-1) - 1. -/
theorem splitPrefixAndNumber_success_form (w : Nat) (hw : w = 32 ∨ w = 64)
    (order : List (GoString × BrowseType)) (hperm : order.Perm BrowseTypePrefix)
    (arg : GoString) (hok : (splitPrefixAndNumber w order arg).2.2 = none) :
    ∃ (k : GoString) (v : BrowseType) (neg : Bool) (ds : GoString),
      (k, v) ∈ BrowseTypePrefix ∧ ds ≠ [] ∧ (∀ c ∈ ds, isDigit c = true) ∧
      ((arg = k ++ ds ∧ neg = false) ∨ (arg = k ++ 43 :: ds ∧ neg = false) ∨
        (arg = k ++ 45 :: ds ∧ neg = true)) ∧
      splitPrefixAndNumber w order arg =
        (v, (if neg then -(decimalValue ds : Int) else (decimalValue ds : Int)), none) ∧
      -(2 : Int) ^ (w - 1) ≤ (splitPrefixAndNumber w order arg).2.1 ∧
      (splitPrefixAndNumber w order arg).2.1 < (2 : Int) ^ (w - 1) := by
  have hpow : ((2 ^ (w - 1) : Nat) : Int) = (2 : Int) ^ (w - 1) := by push_cast; rfl
  have hpos : (0 : Int) < 2 ^ (w - 1) := by positivity
  rcases split_cases w order hperm arg with ⟨⟨k, v⟩, he, hp, hr⟩ | ⟨_, hr⟩
  · rw [hr] at hok ⊢
    unfold matched at hok ⊢
    by_cases hA : (Atoi w (TrimPrefix arg k)).2 ≠ none
    · rw [if_pos hA] at hok; cases hok
    · rw [if_neg hA]
      have hA2 : (Atoi w (TrimPrefix arg k)).2 = none := by
        cases hh : (Atoi w (TrimPrefix arg k)).2
        · rfl
        · exact absurd (by rw [hh]; simp) hA
      obtain ⟨neg, ds, hne, hd, hform, hval, hrange⟩ := Atoi_ok_form w hw _ hA2
      have harg := HasPrefix_split arg k hp
      refine ⟨k, v, neg, ds, he, hne, hd, ?_, by rw [hval], ?_, ?_⟩
      · rcases hform with ⟨h, hn⟩ | ⟨h, hn⟩ | ⟨h, hn⟩
        · exact Or.inl ⟨by rw [← h]; exact harg, hn⟩
        · exact Or.inr (Or.inl ⟨by rw [← h]; exact harg, hn⟩)
        · exact Or.inr (Or.inr ⟨by rw [← h]; exact harg, hn⟩)
      · show -(2 : Int) ^ (w - 1) ≤ (Atoi w (TrimPrefix arg k)).1
        rw [hval]
        cases neg
        · simp only [Bool.false_eq_true, if_false]; omega
        · simp only [if_true] at hrange ⊢
          have : ((decimalValue ds : Nat) : Int) ≤ 2 ^ (w - 1) := by
            rw [← hpow]; exact_mod_cast hrange
          omega
      · show (Atoi w (TrimPrefix arg k)).1 < (2 : Int) ^ (w - 1)
        rw [hval]
        cases neg
        · simp only [Bool.false_eq_true, if_false] at hrange ⊢
          rw [← hpow]; exact_mod_cast hrange
        · simp only [if_true]; omega
  · rw [hr] at hok; cases hok

/-- Witness of C5 (amended): "#-5" succeeds, and is the key "#", the sign "-"
and the digit "5". -/
theorem splitPrefixAndNumber_success_form_witness :
    (splitPrefixAndNumber 64 BrowseTypePrefix (str "#-5")).2.2 = none ∧
    ∃ (k : GoString) (v : BrowseType) (neg : Bool) (ds : GoString),
      (k, v) ∈ BrowseTypePrefix ∧ ds ≠ [] ∧ (∀ c ∈ ds, isDigit c = true) ∧
      ((str "#-5" = k ++ ds ∧ neg = false) ∨ (str "#-5" = k ++ 43 :: ds ∧ neg = false) ∨
        (str "#-5" = k ++ 45 :: ds ∧ neg = true)) ∧
      splitPrefixAndNumber 64 BrowseTypePrefix (str "#-5") =
        (v, (if neg then -(decimalValue ds : Int) else (decimalValue ds : Int)), none) ∧
      -(2 : Int) ^ (64 - 1) ≤ (splitPrefixAndNumber 64 BrowseTypePrefix (str "#-5")).2.1 ∧
      (splitPrefixAndNumber 64 BrowseTypePrefix (str "#-5")).2.1 < (2 : Int) ^ (64 - 1) :=
  ⟨by decide,
   splitPrefixAndNumber_success_form 64 (Or.inr rfl) BrowseTypePrefix (List.Perm.refl _)
     (str "#-5") (by decide)⟩

/-- C6: for every argument and every two iteration orders of the prefix table,
splitPrefixAndNumber returns the same triple (type, number, error message);
in particular resolving the same string twice gives identical results. -/
theorem splitPrefixAndNumber_order_independent (w : Nat)
    (order1 order2 : List (GoString × BrowseType))
    (h1 : order1.Perm BrowseTypePrefix) (h2 : order2.Perm BrowseTypePrefix)
    (arg : GoString) :
    splitPrefixAndNumber w order1 arg = splitPrefixAndNumber w order2 arg := by
  rcases split_cases w order1 h1 arg with ⟨e, he, hp, hr⟩ | ⟨hno, hr⟩
  · rw [hr, split_matched w order2 h2 arg e he hp]
  · rw [hr, split_unmatched w order2 h2 arg hno]

/-- Witness of C6: the table read forwards and read backwards resolve "m12"
alike. -/
theorem splitPrefixAndNumber_order_independent_witness :
    splitPrefixAndNumber 64 BrowseTypePrefix (str "m12") =
      splitPrefixAndNumber 64 BrowseTypePrefix.reverse (str "m12") :=
  splitPrefixAndNumber_order_independent 64 BrowseTypePrefix BrowseTypePrefix.reverse
    (List.Perm.refl _) (List.reverse_perm _) (str "m12")

/-- C8: the keys of BrowseTypePrefix are pairwise distinct, "#", "i", "I" map
to Issue and "!", "m", "M" to MergeRequest and the table has no other entry,
no key is a prefix of a different key, and at most one key is a prefix of any
given string. -/
theorem BrowseTypePrefix_unambiguous :
    (BrowseTypePrefix.map Prod.fst).Nodup ∧
    (∀ (k : GoString) (v : BrowseType), (k, v) ∈ BrowseTypePrefix ↔
      ((k ∈ [str "#", str "i", str "I"] ∧ v = Issue) ∨
        (k ∈ [str "!", str "m", str "M"] ∧ v = MergeRequest))) ∧
    (∀ k1 ∈ BrowseTypePrefix.map Prod.fst, ∀ k2 ∈ BrowseTypePrefix.map Prod.fst,
      k1 <+: k2 → k1 = k2) ∧
    (∀ (s : GoString), ∀ k1 ∈ BrowseTypePrefix.map Prod.fst,
      ∀ k2 ∈ BrowseTypePrefix.map Prod.fst, k1 <+: s → k2 <+: s → k1 = k2) := by
  have hamb : ∀ (s : GoString), ∀ k1 ∈ BrowseTypePrefix.map Prod.fst,
      ∀ k2 ∈ BrowseTypePrefix.map Prod.fst, k1 <+: s → k2 <+: s → k1 = k2 := by
    intro s k1 hk1 k2 hk2 p1 p2
    obtain ⟨v1, hv1⟩ := key_mem k1 hk1
    obtain ⟨v2, hv2⟩ := key_mem k2 hk2
    have := table_unambiguous s (k1, v1) (k2, v2) hv1 hv2
      ((HasPrefix_iff _ _).2 p1) ((HasPrefix_iff _ _).2 p2)
    exact congrArg Prod.fst this
  refine ⟨by decide, ?_, ?_, hamb⟩
  · intro k v
    rw [table_eq]
    have e1 : str "#" = [35] := by decide
    have e2 : str "i" = [105] := by decide
    have e3 : str "I" = [73] := by decide
    have e4 : str "!" = [33] := by decide
    have e5 : str "m" = [109] := by decide
    have e6 : str "M" = [77] := by decide
    rw [e1, e2, e3, e4, e5, e6]
    simp only [List.mem_cons, List.mem_singleton, List.not_mem_nil, or_false, Prod.mk.injEq]
    tauto
  · intro k1 hk1 k2 hk2 hp
    exact hamb k2 k1 hk1 k2 hk2 hp (List.prefix_refl _)

/-- Witness of C8: of the keys "i" and "I" only "i" is a prefix of "i12". -/
theorem BrowseTypePrefix_unambiguous_witness :
    ((str "i", Issue) ∈ BrowseTypePrefix) ∧
    (∀ k2 ∈ BrowseTypePrefix.map Prod.fst, k2 <+: str "i12" → str "i" = k2) :=
  ⟨(BrowseTypePrefix_unambiguous.2.1 (str "i") Issue).2 (Or.inl ⟨by decide, rfl⟩),
   fun k2 hk2 hp =>
     BrowseTypePrefix_unambiguous.2.2.2 (str "i12") (str "i") (by decide) k2 hk2 (by decide) hp⟩

/-! ### Printed references -/

theorem Atoi_fmtInt (w : Nat) (hw : w = 32 ∨ w = 64) (n : Int)
    (hlo : -(2 : Int) ^ (w - 1) ≤ n) (hhi : n < (2 : Int) ^ (w - 1)) :
    Atoi w (fmtInt n) = (n, none) := by
  obtain ⟨P, h1, _, _, h4, h5⟩ := pow_facts w hw
  rw [h5] at hlo hhi
  rcases lt_or_le n 0 with hn | hn
  · obtain ⟨ds, hf, hne, hd, hv⟩ := fmtInt_neg n hn (by omega)
    rw [hf, Atoi_minus w hw ds hne hd (by rw [h1]; omega), hv, neg_neg]
  · obtain ⟨ds, hf, hne, hd, hv⟩ := fmtInt_nonneg n hn (by omega)
    rw [hf, (Atoi_digits w hw ds hne hd).1 (by rw [h1]; omega), hv]

/-- C9: for every n in the range of int, the reference add-issue prints for
n, "#" and the decimal rendering of n, resolves to (Issue, n, nil), and the
reference the merge-request listing prints, "!" and the decimal rendering of
n, resolves to (MergeRequest, n, nil), in every iteration order. -/
theorem printed_reference_roundtrip (w : Nat) (hw : w = 32 ∨ w = 64)
    (order : List (GoString × BrowseType)) (hperm : order.Perm BrowseTypePrefix)
    (n : Int) (hlo : -(2 : Int) ^ (w - 1) ≤ n) (hhi : n < (2 : Int) ^ (w - 1)) :
    splitPrefixAndNumber w order (issueReference n) = (Issue, n, none) ∧
    splitPrefixAndNumber w order (mergeRequestReference n) = (MergeRequest, n, none) := by
  unfold issueReference mergeRequestReference
  rw [split_marker w order hperm (str "#") Issue (by decide),
    split_marker w order hperm (str "!") MergeRequest (by decide),
    Atoi_fmtInt w hw n hlo hhi]
  simp

/-- Witness of C9: the references printed for -12 are "#-12" and "!-12", and
they resolve to -12. -/
theorem printed_reference_roundtrip_witness :
    issueReference (-12) = str "#-12" ∧ mergeRequestReference (-12) = str "!-12" ∧
    splitPrefixAndNumber 64 BrowseTypePrefix (issueReference (-12)) = (Issue, -12, none) ∧
    splitPrefixAndNumber 64 BrowseTypePrefix (mergeRequestReference (-12)) =
      (MergeRequest, -12, none) :=
  ⟨by decide, by decide,
   printed_reference_roundtrip 64 (Or.inr rfl) BrowseTypePrefix (List.Perm.refl _) (-12)
     (by norm_num) (by norm_num)⟩

/-! ### The browser launcher -/

theorem searchCandidates_first (LookPath : GoString → Option GoString) :
    ∀ (before : List GoString) (b : GoString) (after : List GoString) (path : GoString),
      (∀ x ∈ before, LookPath x = none) → LookPath b = some path →
      searchCandidates LookPath (before ++ b :: after) = path
  | [], b, after, path, _, hb => by simp [searchCandidates, hb]
  | x :: before, b, after, path, hn, hb => by
    have hx : LookPath x = none := hn x (List.mem_cons_self _ _)
    have ih := searchCandidates_first LookPath before b after path
      (fun y hy => hn y (List.mem_cons_of_mem _ hy)) hb
    simp [searchCandidates, hx, ih]

theorem searchCandidates_none (LookPath : GoString → Option GoString) :
    ∀ (cs : List GoString), (∀ x ∈ cs, LookPath x = none) → searchCandidates LookPath cs = []
  | [], _ => rfl
  | x :: cs, hn => by
    have hx : LookPath x = none := hn x (List.mem_cons_self _ _)
    have ih := searchCandidates_none LookPath cs (fun y hy => hn y (List.mem_cons_of_mem _ hy))
    simp [searchCandidates, hx, ih]

theorem searchCandidates_empty (LookPath : GoString → Option GoString) :
    ∀ (cs : List GoString), searchCandidates LookPath cs = [] →
      (∀ x ∈ cs, LookPath x = none) ∨
      (∃ (before : List GoString) (b : GoString) (after : List GoString),
        cs = before ++ b :: after ∧ (∀ x ∈ before, LookPath x = none) ∧ LookPath b = some [])
  | [], _ => Or.inl (fun x hx => absurd hx (List.not_mem_nil x))
  | x :: cs, h => by
    cases hx : LookPath x with
    | some p =>
      have : p = [] := by simpa [searchCandidates, hx] using h
      subst this
      exact Or.inr ⟨[], x, cs, rfl, (fun y hy => absurd hy (List.not_mem_nil y)), hx⟩
    | none =>
      have h2 : searchCandidates LookPath cs = [] := by simpa [searchCandidates, hx] using h
      rcases searchCandidates_empty LookPath cs h2 with hall | ⟨before, b, after, rfl, hb, hl⟩
      · left
        intro y hy
        rcases List.mem_cons.1 hy with rfl | hy
        · exact hx
        · exact hall y hy
      · right
        refine ⟨x :: before, b, after, rfl, ?_, hl⟩
        intro y hy
        rcases List.mem_cons.1 hy with rfl | hy
        · exact hx
        · exact hb y hy

/-- C10: SearchBrowserLauncher returns "open" for "darwin" and "cmd /c start"
for "windows" whatever the lookup says; for every other goos it returns the
path of the first candidate, in the order xdg-open, cygstart, x-www-browser,
firefox, opera, mozilla, netscape, whose lookup succeeds, and the empty string
when no lookup succeeds; and, a path found by exec.LookPath being a file name
and so never the empty string, it returns the empty string only when no
lookup succeeds. -/
theorem SearchBrowserLauncher_spec (LookPath : GoString → Option GoString) (goos : GoString) :
    candidates = [str "xdg-open", str "cygstart", str "x-www-browser", str "firefox",
      str "opera", str "mozilla", str "netscape"] ∧
    (goos = str "darwin" → SearchBrowserLauncher LookPath goos = str "open") ∧
    (goos = str "windows" → SearchBrowserLauncher LookPath goos = str "cmd /c start") ∧
    (goos ≠ str "darwin" → goos ≠ str "windows" →
      (∀ (before : List GoString) (b : GoString) (after : List GoString) (path : GoString),
        candidates = before ++ b :: after → (∀ x ∈ before, LookPath x = none) →
        LookPath b = some path → SearchBrowserLauncher LookPath goos = path) ∧
      ((∀ b ∈ candidates, LookPath b = none) → SearchBrowserLauncher LookPath goos = []) ∧
      ((∀ b ∈ candidates, ∀ p, LookPath b = some p → p ≠ []) →
        (SearchBrowserLauncher LookPath goos = [] ↔ ∀ b ∈ candidates, LookPath b = none))) := by
  refine ⟨rfl, ?_, ?_, ?_⟩
  · rintro rfl; rfl
  · rintro rfl; rfl
  · intro hd hw
    have hs : SearchBrowserLauncher LookPath goos = searchCandidates LookPath candidates := by
      unfold SearchBrowserLauncher
      rw [if_neg hd, if_neg hw]
    rw [hs]
    refine ⟨?_, searchCandidates_none LookPath candidates, ?_⟩
    · intro before b after path hc hn hb
      rw [hc]
      exact searchCandidates_first LookPath before b after path hn hb
    · intro hne
      constructor
      · intro he
        rcases searchCandidates_empty LookPath candidates he with
          h | ⟨before, b, after, hc, _, hb⟩
        · exact h
        · exact absurd rfl (hne b (by rw [hc]; simp) [] hb)
      · exact searchCandidates_none LookPath candidates

/-- Witness of C10: on "linux" with only firefox and opera installed, the
launcher is the path of firefox, and it is not the empty string. -/
theorem SearchBrowserLauncher_spec_witness :
    SearchBrowserLauncher
      (fun b => if b = str "firefox" then some (str "/usr/bin/firefox")
        else if b = str "opera" then some (str "/usr/bin/opera") else none)
      (str "linux") = str "/usr/bin/firefox" ∧
    (SearchBrowserLauncher
      (fun b => if b = str "firefox" then some (str "/usr/bin/firefox")
        else if b = str "opera" then some (str "/usr/bin/opera") else none)
      (str "linux") = [] ↔
      ∀ b ∈ candidates,
        (fun b => if b = str "firefox" then some (str "/usr/bin/firefox")
          else if b = str "opera" then some (str "/usr/bin/opera") else none) b = none) :=
  ⟨((SearchBrowserLauncher_spec
      (fun b => if b = str "firefox" then some (str "/usr/bin/firefox")
        else if b = str "opera" then some (str "/usr/bin/opera") else none)
      (str "linux")).2.2.2 (by decide) (by decide)).1
      [str "xdg-open", str "cygstart", str "x-www-browser"] (str "firefox")
      [str "opera", str "mozilla", str "netscape"] (str "/usr/bin/firefox")
      (by decide) (by decide) (by decide),
   ((SearchBrowserLauncher_spec
      (fun b => if b = str "firefox" then some (str "/usr/bin/firefox")
        else if b = str "opera" then some (str "/usr/bin/opera") else none)
      (str "linux")).2.2.2 (by decide) (by decide)).2.2
      (by
        intro b _ p hp
        split_ifs at hp
        · cases hp; decide
        · cases hp; decide)⟩

/-! ### The options of add-issue -/

/-- C7 (the code at a concrete input): with the flags title "t", description
"d", assignee ID 5, milestone ID 3 and labels "bug", the options passed to
CreateIssue carry the title and the description but no milestone ID and no
label; for every title and description makeCreateIssueOptions leaves the
milestone ID nil and the labels empty; and the options do not depend on the
flags assignee ID, milestone ID and labels at all. -/
theorem makeCreateIssueOptions_drops_flags :
    runCreateIssueOptions
      { Title := str "t", Description := str "d", AssigneeID := 5, MilestoneID := 3,
        Labels := str "bug" } none =
      some (makeCreateIssueOptions (str "t") (str "d")) ∧
    makeCreateIssueOptions (str "t") (str "d") =
      { Title := some (str "t"), Description := some (str "d"), MilestoneID := none,
        Labels := [] } ∧
    (∀ title description : GoString,
      (makeCreateIssueOptions title description).MilestoneID = none ∧
      (makeCreateIssueOptions title description).Labels = []) ∧
    (∀ (flags : CreateIssueFlags) (edited : Option (GoString × GoString))
      (assignee milestone : Int) (labels : GoString),
      runCreateIssueOptions
        { Title := flags.Title, Description := flags.Description, AssigneeID := assignee,
          MilestoneID := milestone, Labels := labels } edited =
        runCreateIssueOptions flags edited) :=
  ⟨by decide, by decide, fun _ _ => ⟨rfl, rfl⟩, fun _ _ _ _ _ => rfl⟩

end Lab
